import Mathlib

/-!
Verification of the pipeline engine and budget-constrained procurement loop of
the grocery-shopping agent.

The shallow embedding below follows the Python sources:

* `agent.py` — `AgentState`, `planner_node`, `extractor_node`, `shopper_node`,
  `human_review_node`, `checkout_node`.  The procurement loop of `shopper_node`
  (lines 145-259) is embedded as `processItem` / `runItems` / `shopper_node`.
* `workflow.py` / `amazon_fresh_fetch.py` — the stage graph (planner →
  extractor → shopper → human_review → checkout) with interrupt points
  before `shopper` and `checkout`.
* `browser.py` — the catalog interface; `add_specific_item` is embedded with
  its bounds check, the remaining browser operations are treated as an
  opaque oracle (`Behavior`) supplying their observable results.

Nondeterministic external calls (LLM responses, browser search results, add
successes, fallback results) are modelled by a `Behavior` record of oracles
indexed by the item position in the shopping list.  Monetary amounts are
modelled as rationals.  The runs are instrumented with a call log
(`CatalogCall`) recording every catalog operation the loop issues, and cart
and missing entries are instrumented with the original item descriptor of the
iteration that produced them (the Python code stores formatted strings; the
record keeps the components).
-/

namespace GroceryAgent

/-- One search candidate as produced by
`AmazonFreshBrowser.search_and_get_options` (browser.py lines 170-240):
a title, the raw price string and the parsed price (0 when the price string
contains no dollar sign). -/
structure Candidate where
  title : String
  price_str : String
  price : ℚ
deriving DecidableEq

/-- Result record of `AmazonFreshBrowser.search_and_add` (browser.py lines
107-167): a status string ("ADDED", "NOT_FOUND" or "ERROR") and a price. -/
structure FallbackResult where
  status : String
  price : ℚ
deriving DecidableEq

/-- Catalog operations issued by the shopper, used to instrument runs:
`search` is `search_and_get_options`, `add` is `add_specific_item`,
`searchAdd` is `search_and_add`, `checkout` is `trigger_checkout`. -/
inductive CatalogCall where
  | search (query : String)
  | add (index : Nat)
  | searchAdd (query : String)
  | checkout
deriving DecidableEq

/-- Reason an item was recorded as missing.  The Python code encodes the
reason in the appended string: `BudgetCut` is `item ++ " (Budget Cut)"`
(agent.py line 194), `NotFound` is the bare item (lines 205 and 248),
`NoGoodMatch` is `item ++ " (No good match)"` (line 250). -/
inductive Reason where
  | NotFound
  | BudgetCut
  | NoGoodMatch
deriving DecidableEq

/-- A committed cart entry: the original shopping-list descriptor of the
iteration that produced it, the resolved title, and the price added to the
running total.  The Python code appends the string
`title ++ " ($" ++ price_str ++ ")"` (agent.py line 239) or
`original ++ " ($" ++ price ++ ")"` (line 245); the record keeps the
components together with the originating descriptor. -/
structure CartEntry where
  original : String
  title : String
  price : ℚ
deriving DecidableEq

/-- A missing-item entry: the original descriptor and the reason. -/
structure MissEntry where
  original : String
  reason : Reason
deriving DecidableEq

/-- The string the Python code actually appends to `missing` for an entry. -/
def missDisplay (m : MissEntry) : String :=
  match m.reason with
  | Reason.NotFound => m.original
  | Reason.BudgetCut => m.original ++ " (Budget Cut)"
  | Reason.NoGoodMatch => m.original ++ " (No good match)"

/-- Oracle for every external (LLM and browser) interaction of a run, indexed
by the item position where relevant:

* `planJson` — the plan string produced by `planner_node` after its
  parse-or-default step;
* `extracted` — the shopping list produced by `extractor_node`;
* `optimized` — the query list parsed from the query-optimizer response in
  `shopper_node` (agent.py lines 182-187); `none` means the try/except fell
  back to the shopping list itself;
* `searchPrimary i` — result of `search_and_get_options(search_term)` for
  item `i`;
* `searchRetry i` — result of the retry `search_and_get_options(original)`
  for item `i`;
* `decision i` — the raw selection-LLM message content for item `i`;
* `addResult i` — result of `add_specific_item` for item `i`;
* `fallback i` — result of `search_and_add(search_term)` for item `i`;
* `checkoutOk` — result of `trigger_checkout` (discarded by `shopper_node`,
  which does not bind the awaited value at agent.py line 255). -/
structure Behavior where
  planJson : String
  extracted : List String
  optimized : Option (List String)
  searchPrimary : Nat → List Candidate
  searchRetry : Nat → List Candidate
  decision : Nat → String
  addResult : Nat → Bool
  fallback : Nat → FallbackResult
  checkoutOk : Bool

/-- Numeric value of a block of decimal digits. -/
def digitsToNat (cs : List Char) : Nat :=
  cs.foldl (fun a c => a * 10 + (c.toNat - 48)) 0

/-- Leftmost match of the regular expression `-?\d+` in a character list, as
an integer, mirroring Python `re.search(r"-?\d+", s)` followed by `int` on
the matched text (agent.py line 231): scanning left to right, a maximal digit
run, optionally preceded by a minus sign, wins. -/
def findIntMatch : List Char → Option Int
  | [] => none
  | c :: rest =>
    if c.isDigit then
      some (Int.ofNat (digitsToNat ((c :: rest).takeWhile Char.isDigit)))
    else if c = '-' then
      match rest with
      | [] => none
      | d :: tail =>
        if d.isDigit then
          some (-(Int.ofNat (digitsToNat ((d :: tail).takeWhile Char.isDigit))))
        else
          findIntMatch rest
    else
      findIntMatch rest

/-- The choice index the shopper derives from the selection-LLM output
(agent.py lines 230-233): the first integer found in the content, or 0 when
no integer is present (`re.search` returns `None`, raising `AttributeError`,
which is caught and defaulted to 0). -/
def parseChoice (s : String) : Int :=
  match findIntMatch s.toList with
  | some n => n
  | none => 0

/-- Accumulated outcome of (part of) the procurement loop. -/
structure StepResult where
  cart : List CartEntry
  missing : List MissEntry
  total : ℚ
  calls : List CatalogCall
deriving DecidableEq

/-- The selection-and-commit part of one loop iteration (agent.py lines
208-250), given the retrieved (possibly retried) options: parse a choice
index from the selection output; if it is in bounds, attempt
`add_specific_item`; on success commit the chosen candidate, otherwise run
the one-shot `search_and_add` fallback on the primary query and commit its
price when its status is "ADDED"; record missing (reason `NotFound`) when
the fallback also fails, and missing (reason `NoGoodMatch`) when the choice
is out of bounds. -/
def selectAndCommit (b : Behavior) (i : Nat) (original search_term : String)
    (total : ℚ) (options : List Candidate) (calls : List CatalogCall) :
    StepResult :=
  let choice_idx : Int := parseChoice (b.decision i)
  if h : 0 ≤ choice_idx ∧ choice_idx < (options.length : Int) then
    let chosen := options.get ⟨choice_idx.toNat, by
      obtain ⟨h1, h2⟩ := h
      omega⟩
    if b.addResult i then
      ⟨[⟨original, chosen.title, chosen.price⟩], [], total + chosen.price,
        calls ++ [CatalogCall.add choice_idx.toNat]⟩
    else
      let bf := b.fallback i
      if bf.status = "ADDED" then
        ⟨[⟨original, original, bf.price⟩], [], total + bf.price,
          calls ++ [CatalogCall.add choice_idx.toNat,
            CatalogCall.searchAdd search_term]⟩
      else
        ⟨[], [⟨original, Reason.NotFound⟩], total,
          calls ++ [CatalogCall.add choice_idx.toNat,
            CatalogCall.searchAdd search_term]⟩
  else
    ⟨[], [⟨original, Reason.NoGoodMatch⟩], total, calls⟩

/-- One iteration of the procurement loop of `shopper_node` (agent.py lines
191-252) for the item at position `i` with descriptor `original` and
optimized query `search_term`, starting from running total `total`:

1. budget gate — when `total >= limit`, record missing with reason
   `BudgetCut` and issue no catalog call;
2. search the primary query; when empty and the query differs from the
   original descriptor, retry once with the original; when still empty,
   record missing with reason `NotFound`;
3. otherwise select and commit. -/
def processItem (limit : ℚ) (b : Behavior) (i : Nat)
    (original search_term : String) (total : ℚ) : StepResult :=
  if limit ≤ total then
    ⟨[], [⟨original, Reason.BudgetCut⟩], total, []⟩
  else
    let options := b.searchPrimary i
    if options.isEmpty then
      if search_term ≠ original then
        let retried := b.searchRetry i
        if retried.isEmpty then
          ⟨[], [⟨original, Reason.NotFound⟩], total,
            [CatalogCall.search search_term, CatalogCall.search original]⟩
        else
          selectAndCommit b i original search_term total retried
            [CatalogCall.search search_term, CatalogCall.search original]
      else
        ⟨[], [⟨original, Reason.NotFound⟩], total,
          [CatalogCall.search search_term]⟩
    else
      selectAndCommit b i original search_term total options
        [CatalogCall.search search_term]

/-- The options list actually offered to the selection policy for item `i`
after the retry step: the primary results when nonempty, else the retry
results when the query was transformed, else empty. -/
def optionsAfterRetry (b : Behavior) (i : Nat)
    (original search_term : String) : List Candidate :=
  let options := b.searchPrimary i
  if options.isEmpty then
    if search_term ≠ original then b.searchRetry i else options
  else options

/-- The search calls one open-gate iteration issues before selection: the
primary search, plus the retry with the original descriptor exactly when the
primary search came back empty and the query differs from the original. -/
def retryCalls (b : Behavior) (i : Nat) (original search_term : String) :
    List CatalogCall :=
  if (b.searchPrimary i).isEmpty ∧ search_term ≠ original then
    [CatalogCall.search search_term, CatalogCall.search original]
  else
    [CatalogCall.search search_term]

/-- The procurement loop over the zipped (item, query) pairs, threading the
running total and the item position, concatenating per-item outcomes. -/
def runItems (limit : ℚ) (b : Behavior) :
    Nat → List (String × String) → ℚ → StepResult
  | _, [], total => ⟨[], [], total, []⟩
  | i, p :: rest, total =>
    let r := processItem limit b i p.1 p.2 total
    let r2 := runItems limit b (i + 1) rest r.total
    ⟨r.cart ++ r2.cart, r.missing ++ r2.missing, r2.total, r.calls ++ r2.calls⟩

/-- The query list the loop zips against the shopping list (agent.py lines
182-187): the optimizer output when it parsed, else the shopping list. -/
def queriesOf (b : Behavior) (shopping_list : List String) : List String :=
  match b.optimized with
  | some qs => qs
  | none => shopping_list

/-- Return record of `shopper_node` (agent.py line 259), instrumented with
the catalog call log.  The `trigger_checkout` call is issued once after the
loop; its boolean result (`b.checkoutOk`) is not bound by the code and does
not appear in the returned record. -/
structure ShopperResult where
  cart_items : List CartEntry
  missing_items : List MissEntry
  total_cost : ℚ
  calls : List CatalogCall
deriving DecidableEq

/-- The shopper stage (agent.py lines 145-259): zip the shopping list with
the optimized queries, run the procurement loop from the starting total, then
trigger the checkout hand-off exactly once. -/
def shopper_node (b : Behavior) (shopping_list : List String)
    (startTotal limit : ℚ) : ShopperResult :=
  let optimized_queries := queriesOf b shopping_list
  let r := runItems limit b 0 (shopping_list.zip optimized_queries) startTotal
  ⟨r.cart, r.missing, r.total, r.calls ++ [CatalogCall.checkout]⟩

/-- The loop state after the first `k` iterations of a `shopper_node` run. -/
def shopperAt (b : Behavior) (shopping_list : List String)
    (startTotal limit : ℚ) (k : Nat) : StepResult :=
  runItems limit b 0 ((shopping_list.zip (queriesOf b shopping_list)).take k)
    startTotal

/-- Sum of the prices of a list of cart entries. -/
def sumPrices (l : List CartEntry) : ℚ :=
  (l.map CartEntry.price).sum

/-- The original descriptors of a list of cart entries. -/
def cartOriginals (l : List CartEntry) : List String :=
  l.map CartEntry.original

/-- The original descriptors of a list of missing entries. -/
def missOriginals (l : List MissEntry) : List String :=
  l.map MissEntry.original

/-- `AmazonFreshBrowser.add_specific_item` (browser.py lines 242-274): when
the index is at or beyond the number of on-page results, return false without
touching the page; otherwise the outcome is whether the indexed result card
exposes a visible add-to-cart button that can be clicked, modelled by the
`clickable` oracle. -/
def add_specific_item {α : Type} (results : List α) (clickable : α → Bool)
    (index : Nat) : Bool :=
  if h : results.length ≤ index then
    false
  else
    clickable (results.get ⟨index, by omega⟩)

/-! ## The pipeline engine

The stage graph and interrupt set are taken from `workflow.py` lines 27-42
(equivalently `amazon_fresh_fetch.py` lines 56-71).  The execution semantics
of the underlying graph library is not part of this repository; it is
modelled from the spec. -/

/-- The five pipeline stages (nodes of the graph in workflow.py). -/
inductive Stage where
  | planner
  | extractor
  | shopper
  | human_review
  | checkout
deriving DecidableEq

/-- The linear edge structure of the graph (workflow.py lines 33-38):
planner → extractor → shopper → human_review → checkout → END. -/
def nextStage : Stage → Option Stage
  | Stage.planner => some Stage.extractor
  | Stage.extractor => some Stage.shopper
  | Stage.shopper => some Stage.human_review
  | Stage.human_review => some Stage.checkout
  | Stage.checkout => none

/-- The interrupt points (workflow.py line 41:
`interrupt_before=["shopper", "checkout"]`). -/
def interruptBefore : List Stage :=
  [Stage.shopper, Stage.checkout]

/-- The pipeline state (`AgentState` in agent.py lines 24-48), with message
records modelled by their content strings and monetary amounts by
rationals. -/
structure AgentState where
  messages : List String
  meal_plan_json : String
  shopping_list : List String
  cart_items : List CartEntry
  missing_items : List MissEntry
  user_approved : Bool
  total_cost : ℚ
  budget_limit : ℚ
  pantry_items : String
deriving DecidableEq

/-- A partial-state update returned by a stage: `none` fields are not part
of the update.  Only `messages` carries an accumulating reducer
(`Annotated[List[BaseMessage], add]` in agent.py line 40); every other field
is replaced when present. -/
structure StageUpdate where
  messages : Option (List String)
  meal_plan_json : Option String
  shopping_list : Option (List String)
  cart_items : Option (List CartEntry)
  missing_items : Option (List MissEntry)
  user_approved : Option Bool
  total_cost : Option ℚ
  budget_limit : Option ℚ
  pantry_items : Option String

/-- The empty update (the dictionary `{}` returned by
`human_review_node`). -/
def noUpdate : StageUpdate :=
  ⟨none, none, none, none, none, none, none, none, none⟩

/-- Modelled from the spec: the engine merges a partial update into the
state — fields not returned are left untouched, returned fields replace the
old value, except `messages`, whose declared reducer appends (agent.py line
40). -/
def applyUpdate (s : AgentState) (u : StageUpdate) : AgentState :=
  { messages := s.messages ++ u.messages.getD []
    meal_plan_json := u.meal_plan_json.getD s.meal_plan_json
    shopping_list := u.shopping_list.getD s.shopping_list
    cart_items := u.cart_items.getD s.cart_items
    missing_items := u.missing_items.getD s.missing_items
    user_approved := u.user_approved.getD s.user_approved
    total_cost := u.total_cost.getD s.total_cost
    budget_limit := u.budget_limit.getD s.budget_limit
    pantry_items := u.pantry_items.getD s.pantry_items }

/-- The stage functions of agent.py as update producers, with the external
interactions supplied by the behavior oracle:

* `planner_node` returns the plan string and resets `total_cost` to 0
  (line 94);
* `extractor_node` returns the extracted shopping list (line 142);
* `shopper_node` returns cart, missing and total (line 259), computed by the
  procurement loop from the state fields `shopping_list`, `total_cost` and
  `budget_limit` (lines 155-157);
* `human_review_node` returns the empty update (line 265);
* `checkout_node` returns one appended message (line 271). -/
def stageExec (b : Behavior) : Stage → AgentState → StageUpdate
  | Stage.planner, _ =>
    { noUpdate with meal_plan_json := some b.planJson, total_cost := some 0 }
  | Stage.extractor, _ =>
    { noUpdate with shopping_list := some b.extracted }
  | Stage.shopper, s =>
    let r := shopper_node b s.shopping_list s.total_cost s.budget_limit
    { noUpdate with
        cart_items := some r.cart_items
        missing_items := some r.missing_items
        total_cost := some r.total_cost }
  | Stage.human_review, _ => noUpdate
  | Stage.checkout, _ =>
    { noUpdate with messages := some ["Handoff."] }

/-- Modelled from the spec: the engine executes stages in graph order,
halting and returning control to the caller before any stage in the
interrupt set.  `check` is true when the interrupt set must be consulted
before executing the current stage; a resume re-enters with `check = false`
because the halt for the pending stage already happened.  Returns the list
of stages executed during this invocation, the resulting state, and the
pending stage marker (`none` when the terminal stage completed).  The fuel
argument bounds recursion; five suffices for the five-stage graph. -/
def engineRun (exec : Stage → AgentState → StageUpdate) :
    Nat → Stage → Bool → AgentState →
    List Stage × AgentState × Option Stage
  | 0, s, _, st => ([], st, some s)
  | fuel + 1, s, check, st =>
    if check ∧ s ∈ interruptBefore then
      ([], st, some s)
    else
      let st2 := applyUpdate st (exec s st)
      match nextStage s with
      | none => ([s], st2, none)
      | some t =>
        let r := engineRun exec fuel t true st2
        (s :: r.1, r.2)

/-- Modelled from the spec: `start` begins execution at the entry stage
(`planner`, workflow.py line 33) with the interrupt check active. -/
def startRun (exec : Stage → AgentState → StageUpdate) (st0 : AgentState) :
    List Stage × AgentState × Option Stage :=
  engineRun exec 5 Stage.planner true st0

/-- Modelled from the spec: `resume` continues execution at the recorded
pending stage, executing that stage (the halt for it already happened). -/
def resumeRun (exec : Stage → AgentState → StageUpdate) (p : Stage)
    (st : AgentState) : List Stage × AgentState × Option Stage :=
  engineRun exec 5 p false st

/-! ## Concrete behaviors used by witnesses and counterexamples -/

/-- A behavior whose searches all come back empty. -/
def bEmpty : Behavior :=
  { planJson := "plan"
    extracted := []
    optimized := none
    searchPrimary := fun _ => []
    searchRetry := fun _ => []
    decision := fun _ => "0"
    addResult := fun _ => true
    fallback := fun _ => ⟨"ERROR", 0⟩
    checkoutOk := true }

/-- The boundary scenario of spec section 8: apple at 3.00 then beef at
12.00, both found and added, against a budget of 10.00. -/
def bShop : Behavior :=
  { planJson := "plan"
    extracted := ["apple", "beef"]
    optimized := none
    searchPrimary := fun i =>
      if i = 0 then [⟨"Apple", "3.00", 3⟩]
      else if i = 1 then [⟨"Beef", "12.00", 12⟩]
      else []
    searchRetry := fun _ => []
    decision := fun _ => "0"
    addResult := fun _ => true
    fallback := fun _ => ⟨"ERROR", 0⟩
    checkoutOk := true }

/-- A behavior whose query optimizer returned an empty query list. -/
def bNoQueries : Behavior :=
  { bEmpty with optimized := some [] }

/-- A behavior whose selection policy answers the no-match sentinel -1
against a one-candidate result list. -/
def bNoMatch : Behavior :=
  { bEmpty with
      searchPrimary := fun _ => [⟨"Thing", "5.00", 5⟩]
      decision := fun _ => "-1" }

/-- A behavior whose selection policy answers free text with no digit in it
against a one-candidate result list. -/
def bNoDigit : Behavior :=
  { bEmpty with
      searchPrimary := fun _ => [⟨"Thing", "5.00", 5⟩]
      decision := fun _ => "sure, the first one" }

/-- A neutral initial pipeline state. -/
def s0 : AgentState :=
  ⟨[], "", [], [], [], false, 0, 10, ""⟩

/-- A behavior conforms to the catalog data model of the spec when every
price it reports is non-negative. -/
def NonNegBehavior (b : Behavior) : Prop :=
  (∀ i c, c ∈ b.searchPrimary i → 0 ≤ c.price) ∧
  (∀ i c, c ∈ b.searchRetry i → 0 ≤ c.price) ∧
  (∀ i, 0 ≤ (b.fallback i).price)

/-- The in-bounds test the shopper applies to the parsed choice index
(agent.py line 235). -/
def choiceInBounds (b : Behavior) (i : Nat) (options : List Candidate) : Prop :=
  0 ≤ parseChoice (b.decision i) ∧
  parseChoice (b.decision i) < (options.length : Int)

/-! ## Lemmas about one selection-and-commit step -/

lemma selectAndCommit_origs (b : Behavior) (i : Nat) (orig q : String)
    (t : ℚ) (options : List Candidate) (calls : List CatalogCall) :
    (selectAndCommit b i orig q t options calls).cart.map CartEntry.original ++
      (selectAndCommit b i orig q t options calls).missing.map MissEntry.original
      = [orig] := by
  simp only [selectAndCommit]
  by_cases hb : 0 ≤ parseChoice (b.decision i) ∧
      parseChoice (b.decision i) < (options.length : Int)
  · rw [dif_pos hb]
    split_ifs <;> simp
  · rw [dif_neg hb]
    simp

lemma selectAndCommit_shape (b : Behavior) (i : Nat) (orig q : String)
    (t : ℚ) (options : List Candidate) (calls : List CatalogCall) :
    ((selectAndCommit b i orig q t options calls).cart = [] ∧
      (selectAndCommit b i orig q t options calls).total = t) ∨
    (∃ e, (selectAndCommit b i orig q t options calls).cart = [e] ∧
      (selectAndCommit b i orig q t options calls).missing = [] ∧
      (selectAndCommit b i orig q t options calls).total = t + e.price) := by
  simp only [selectAndCommit]
  by_cases hb : 0 ≤ parseChoice (b.decision i) ∧
      parseChoice (b.decision i) < (options.length : Int)
  · rw [dif_pos hb]
    split_ifs <;> simp
  · rw [dif_neg hb]
    simp

lemma selectAndCommit_sum (b : Behavior) (i : Nat) (orig q : String)
    (t : ℚ) (options : List Candidate) (calls : List CatalogCall) :
    (selectAndCommit b i orig q t options calls).total =
      t + sumPrices (selectAndCommit b i orig q t options calls).cart := by
  simp only [selectAndCommit]
  by_cases hb : 0 ≤ parseChoice (b.decision i) ∧
      parseChoice (b.decision i) < (options.length : Int)
  · rw [dif_pos hb]
    split_ifs <;> simp [sumPrices]
  · rw [dif_neg hb]
    simp [sumPrices]

lemma selectAndCommit_mono (b : Behavior) (i : Nat) (orig q : String)
    (t : ℚ) (options : List Candidate) (calls : List CatalogCall)
    (hopts : ∀ c ∈ options, 0 ≤ c.price) (hfb : 0 ≤ (b.fallback i).price) :
    t ≤ (selectAndCommit b i orig q t options calls).total := by
  simp only [selectAndCommit]
  by_cases hb : 0 ≤ parseChoice (b.decision i) ∧
      parseChoice (b.decision i) < (options.length : Int)
  · obtain ⟨h1, h2⟩ := hb
    rw [dif_pos ⟨h1, h2⟩]
    split_ifs
    · simpa using hopts _
        (List.get_mem options (parseChoice (b.decision i)).toNat (by omega))
    · simpa using hfb
    · simp
  · rw [dif_neg hb]

lemma selectAndCommit_calls (b : Behavior) (i : Nat) (orig q : String)
    (t : ℚ) (options : List Candidate) (calls : List CatalogCall) :
    ∃ extra, (selectAndCommit b i orig q t options calls).calls = calls ++ extra ∧
      ∀ c ∈ extra, (∃ j, c = CatalogCall.add j ∧ j < options.length) ∨
        c = CatalogCall.searchAdd q := by
  simp only [selectAndCommit]
  by_cases hb : 0 ≤ parseChoice (b.decision i) ∧
      parseChoice (b.decision i) < (options.length : Int)
  · obtain ⟨h1, h2⟩ := hb
    rw [dif_pos ⟨h1, h2⟩]
    split_ifs
    · refine ⟨[CatalogCall.add (parseChoice (b.decision i)).toNat], rfl, ?_⟩
      intro c hc
      simp only [List.mem_singleton] at hc
      subst hc
      exact Or.inl ⟨_, rfl, by omega⟩
    · refine ⟨[CatalogCall.add (parseChoice (b.decision i)).toNat,
        CatalogCall.searchAdd q], rfl, ?_⟩
      intro c hc
      simp only [List.mem_cons, List.mem_singleton, List.not_mem_nil,
        or_false] at hc
      rcases hc with rfl | rfl
      · exact Or.inl ⟨_, rfl, by omega⟩
      · exact Or.inr rfl
    · refine ⟨[CatalogCall.add (parseChoice (b.decision i)).toNat,
        CatalogCall.searchAdd q], rfl, ?_⟩
      intro c hc
      simp only [List.mem_cons, List.mem_singleton, List.not_mem_nil,
        or_false] at hc
      rcases hc with rfl | rfl
      · exact Or.inl ⟨_, rfl, by omega⟩
      · exact Or.inr rfl
  · rw [dif_neg hb]
    exact ⟨[], by simp⟩

lemma selectAndCommit_notFound_iff (b : Behavior) (i : Nat) (orig q : String)
    (t : ℚ) (options : List Candidate) (calls : List CatalogCall) :
    (selectAndCommit b i orig q t options calls).missing.map MissEntry.reason
        = [Reason.NotFound] ↔
      (choiceInBounds b i options ∧ b.addResult i = false ∧
        (b.fallback i).status ≠ "ADDED") := by
  simp only [selectAndCommit]
  by_cases hb : 0 ≤ parseChoice (b.decision i) ∧
      parseChoice (b.decision i) < (options.length : Int)
  · rw [dif_pos hb]
    split_ifs <;> simp_all [choiceInBounds]
  · rw [dif_neg hb]
    simp_all [choiceInBounds]

lemma selectAndCommit_noGoodMatch (b : Behavior) (i : Nat) (orig q : String)
    (t : ℚ) (options : List Candidate) (calls : List CatalogCall)
    (h : ¬ choiceInBounds b i options) :
    selectAndCommit b i orig q t options calls =
      ⟨[], [⟨orig, Reason.NoGoodMatch⟩], t, calls⟩ := by
  simp only [choiceInBounds] at h
  simp only [selectAndCommit]
  rw [dif_neg h]

lemma selectAndCommit_inBounds_add (b : Behavior) (i : Nat) (orig q : String)
    (t : ℚ) (options : List Candidate) (calls : List CatalogCall)
    (h : choiceInBounds b i options) :
    CatalogCall.add (parseChoice (b.decision i)).toNat ∈
        (selectAndCommit b i orig q t options calls).calls ∧
      ∀ m ∈ (selectAndCommit b i orig q t options calls).missing,
        m.reason ≠ Reason.NoGoodMatch := by
  simp only [choiceInBounds] at h
  simp only [selectAndCommit]
  rw [dif_pos h]
  split_ifs <;> simp

/-! ## Lemmas about one full loop iteration -/

lemma processItem_budget (limit : ℚ) (b : Behavior) (i : Nat) (orig q : String)
    (t : ℚ) (h : limit ≤ t) :
    processItem limit b i orig q t = ⟨[], [⟨orig, Reason.BudgetCut⟩], t, []⟩ := by
  simp only [processItem]
  rw [if_pos h]

lemma processItem_eq (limit : ℚ) (b : Behavior) (i : Nat) (orig q : String)
    (t : ℚ) (hgate : ¬ limit ≤ t) :
    processItem limit b i orig q t =
      if optionsAfterRetry b i orig q = [] then
        ⟨[], [⟨orig, Reason.NotFound⟩], t, retryCalls b i orig q⟩
      else
        selectAndCommit b i orig q t (optionsAfterRetry b i orig q)
          (retryCalls b i orig q) := by
  simp only [processItem, optionsAfterRetry, retryCalls]
  rw [if_neg hgate]
  split_ifs <;> simp_all [List.isEmpty_iff]

lemma processItem_origs (limit : ℚ) (b : Behavior) (i : Nat) (orig q : String)
    (t : ℚ) :
    (processItem limit b i orig q t).cart.map CartEntry.original ++
      (processItem limit b i orig q t).missing.map MissEntry.original
      = [orig] := by
  by_cases hgate : limit ≤ t
  · rw [processItem_budget limit b i orig q t hgate]
    simp
  · rw [processItem_eq limit b i orig q t hgate]
    split_ifs
    · simp
    · exact selectAndCommit_origs b i orig q t _ _

lemma processItem_length (limit : ℚ) (b : Behavior) (i : Nat) (orig q : String)
    (t : ℚ) :
    (processItem limit b i orig q t).cart.length +
      (processItem limit b i orig q t).missing.length = 1 := by
  have h := congrArg List.length (processItem_origs limit b i orig q t)
  simpa using h

lemma processItem_shape (limit : ℚ) (b : Behavior) (i : Nat) (orig q : String)
    (t : ℚ) :
    ((processItem limit b i orig q t).cart = [] ∧
      (processItem limit b i orig q t).total = t) ∨
    (∃ e, (processItem limit b i orig q t).cart = [e] ∧
      (processItem limit b i orig q t).missing = [] ∧
      (processItem limit b i orig q t).total = t + e.price) := by
  by_cases hgate : limit ≤ t
  · rw [processItem_budget limit b i orig q t hgate]
    left
    simp
  · rw [processItem_eq limit b i orig q t hgate]
    split_ifs
    · left
      simp
    · exact selectAndCommit_shape b i orig q t _ _

lemma processItem_sum (limit : ℚ) (b : Behavior) (i : Nat) (orig q : String)
    (t : ℚ) :
    (processItem limit b i orig q t).total =
      t + sumPrices (processItem limit b i orig q t).cart := by
  by_cases hgate : limit ≤ t
  · rw [processItem_budget limit b i orig q t hgate]
    simp [sumPrices]
  · rw [processItem_eq limit b i orig q t hgate]
    split_ifs
    · simp [sumPrices]
    · exact selectAndCommit_sum b i orig q t _ _

lemma optionsAfterRetry_sub (b : Behavior) (i : Nat) (orig q : String) :
    optionsAfterRetry b i orig q = b.searchPrimary i ∨
      optionsAfterRetry b i orig q = b.searchRetry i ∨
      optionsAfterRetry b i orig q = [] := by
  simp only [optionsAfterRetry]
  split_ifs <;> simp [List.isEmpty_iff]

lemma processItem_mono (limit : ℚ) (b : Behavior) (i : Nat) (orig q : String)
    (t : ℚ) (hnn : NonNegBehavior b) :
    t ≤ (processItem limit b i orig q t).total := by
  by_cases hgate : limit ≤ t
  · rw [processItem_budget limit b i orig q t hgate]
  · rw [processItem_eq limit b i orig q t hgate]
    split_ifs
    · exact le_refl t
    · refine selectAndCommit_mono b i orig q t _ _ ?_ (hnn.2.2 i)
      intro c hc
      rcases optionsAfterRetry_sub b i orig q with h | h | h <;> rw [h] at hc
      · exact hnn.1 i c hc
      · exact hnn.2.1 i c hc
      · cases hc

lemma processItem_calls (limit : ℚ) (b : Behavior) (i : Nat) (orig q : String)
    (t : ℚ) :
    ∀ c ∈ (processItem limit b i orig q t).calls,
      (∃ q2, c = CatalogCall.search q2) ∨
      (∃ j, c = CatalogCall.add j ∧
        j < (optionsAfterRetry b i orig q).length) ∨
      c = CatalogCall.searchAdd q := by
  by_cases hgate : limit ≤ t
  · rw [processItem_budget limit b i orig q t hgate]
    simp
  · rw [processItem_eq limit b i orig q t hgate]
    split_ifs
    · intro c hc
      left
      simp only [retryCalls] at hc
      split_ifs at hc <;>
        simp only [List.mem_cons, List.mem_singleton, List.not_mem_nil,
          or_false] at hc
      · rcases hc with rfl | rfl
        · exact ⟨q, rfl⟩
        · exact ⟨orig, rfl⟩
      · exact hc ▸ ⟨q, rfl⟩
    · intro c hc
      obtain ⟨extra, he, hextra⟩ := selectAndCommit_calls b i orig q t
        (optionsAfterRetry b i orig q) (retryCalls b i orig q)
      rw [he] at hc
      rcases List.mem_append.mp hc with hc2 | hc2
      · left
        simp only [retryCalls] at hc2
        split_ifs at hc2 <;>
          simp only [List.mem_cons, List.mem_singleton, List.not_mem_nil,
            or_false] at hc2
        · rcases hc2 with rfl | rfl
          · exact ⟨q, rfl⟩
          · exact ⟨orig, rfl⟩
        · exact hc2 ▸ ⟨q, rfl⟩
      · right
        exact hextra c hc2

lemma processItem_no_checkout (limit : ℚ) (b : Behavior) (i : Nat)
    (orig q : String) (t : ℚ) :
    CatalogCall.checkout ∉ (processItem limit b i orig q t).calls := by
  intro hmem
  rcases processItem_calls limit b i orig q t _ hmem with
    ⟨q2, hq⟩ | ⟨j, hj, _⟩ | hs
  · cases hq
  · cases hj
  · cases hs

lemma processItem_notFound_iff (limit : ℚ) (b : Behavior) (i : Nat)
    (orig q : String) (t : ℚ) (hgate : t < limit) :
    (processItem limit b i orig q t).missing.map MissEntry.reason
        = [Reason.NotFound] ↔
      (optionsAfterRetry b i orig q = [] ∨
        (choiceInBounds b i (optionsAfterRetry b i orig q) ∧
          b.addResult i = false ∧ (b.fallback i).status ≠ "ADDED")) := by
  rw [processItem_eq limit b i orig q t (not_le.mpr hgate)]
  split_ifs with h
  · simp [h]
  · rw [selectAndCommit_notFound_iff]
    simp [h]

lemma processItem_noGoodMatch (limit : ℚ) (b : Behavior) (i : Nat)
    (orig q : String) (t : ℚ) (hgate : t < limit)
    (hne : optionsAfterRetry b i orig q ≠ [])
    (hnb : ¬ choiceInBounds b i (optionsAfterRetry b i orig q)) :
    (processItem limit b i orig q t).missing = [⟨orig, Reason.NoGoodMatch⟩] ∧
      ∀ j, CatalogCall.add j ∉ (processItem limit b i orig q t).calls := by
  rw [processItem_eq limit b i orig q t (not_le.mpr hgate)]
  rw [if_neg hne]
  rw [selectAndCommit_noGoodMatch b i orig q t _ _ hnb]
  refine ⟨rfl, ?_⟩
  intro j hmem
  simp only [retryCalls] at hmem
  split_ifs at hmem <;>
    simp only [List.mem_cons, List.mem_singleton, List.not_mem_nil,
      or_false] at hmem
  · rcases hmem with h | h <;> cases h
  · cases hmem

lemma processItem_inBounds_add (limit : ℚ) (b : Behavior) (i : Nat)
    (orig q : String) (t : ℚ) (hgate : t < limit)
    (hb : choiceInBounds b i (optionsAfterRetry b i orig q)) :
    CatalogCall.add (parseChoice (b.decision i)).toNat ∈
        (processItem limit b i orig q t).calls ∧
      ∀ m ∈ (processItem limit b i orig q t).missing,
        m.reason ≠ Reason.NoGoodMatch := by
  have hne : optionsAfterRetry b i orig q ≠ [] := by
    intro h
    rw [h] at hb
    rcases hb with ⟨h1, h2⟩
    simp at h2
    omega
  rw [processItem_eq limit b i orig q t (not_le.mpr hgate)]
  rw [if_neg hne]
  exact selectAndCommit_inBounds_add b i orig q t _ _ hb

/-! ## Lemmas about the whole procurement loop -/

lemma runItems_origs_count (limit : ℚ) (b : Behavior)
    (pairs : List (String × String)) (x : String) :
    ∀ (i : Nat) (t : ℚ),
      ((runItems limit b i pairs t).cart.map CartEntry.original).count x +
        ((runItems limit b i pairs t).missing.map MissEntry.original).count x =
        (pairs.map Prod.fst).count x := by
  induction pairs with
  | nil => intro i t; simp [runItems]
  | cons p rest ih =>
    intro i t
    have hp := congrArg (List.count x) (processItem_origs limit b i p.1 p.2 t)
    rw [List.count_append] at hp
    have ihr := ih (i + 1) (processItem limit b i p.1 p.2 t).total
    simp only [runItems, List.map_append, List.count_append, List.map_cons]
    rw [show (p.1 :: rest.map Prod.fst) = [p.1] ++ rest.map Prod.fst from rfl,
      List.count_append]
    omega

lemma runItems_length (limit : ℚ) (b : Behavior)
    (pairs : List (String × String)) :
    ∀ (i : Nat) (t : ℚ),
      (runItems limit b i pairs t).cart.length +
        (runItems limit b i pairs t).missing.length = pairs.length := by
  induction pairs with
  | nil => intro i t; simp [runItems]
  | cons p rest ih =>
    intro i t
    have hp := processItem_length limit b i p.1 p.2 t
    have ihr := ih (i + 1) (processItem limit b i p.1 p.2 t).total
    simp only [runItems, List.length_append, List.length_cons]
    omega

lemma runItems_sum (limit : ℚ) (b : Behavior)
    (pairs : List (String × String)) :
    ∀ (i : Nat) (t : ℚ),
      (runItems limit b i pairs t).total =
        t + sumPrices (runItems limit b i pairs t).cart := by
  induction pairs with
  | nil => intro i t; simp [runItems, sumPrices]
  | cons p rest ih =>
    intro i t
    have hp := processItem_sum limit b i p.1 p.2 t
    have ihr := ih (i + 1) (processItem limit b i p.1 p.2 t).total
    simp only [runItems]
    rw [ihr, hp]
    simp only [sumPrices, List.map_append, List.sum_append]
    ring

lemma runItems_mono (limit : ℚ) (b : Behavior)
    (pairs : List (String × String)) (hnn : NonNegBehavior b) :
    ∀ (i : Nat) (t : ℚ), t ≤ (runItems limit b i pairs t).total := by
  induction pairs with
  | nil => intro i t; simp [runItems]
  | cons p rest ih =>
    intro i t
    have h1 := processItem_mono limit b i p.1 p.2 t hnn
    have h2 := ih (i + 1) (processItem limit b i p.1 p.2 t).total
    simp only [runItems]
    exact le_trans h1 h2

lemma runItems_saturated (limit : ℚ) (b : Behavior)
    (pairs : List (String × String)) :
    ∀ (i : Nat) (t : ℚ), limit ≤ t →
      runItems limit b i pairs t =
        ⟨[], pairs.map (fun p => ⟨p.1, Reason.BudgetCut⟩), t, []⟩ := by
  induction pairs with
  | nil => intro i t _; simp [runItems]
  | cons p rest ih =>
    intro i t h
    simp only [runItems]
    rw [processItem_budget limit b i p.1 p.2 t h]
    simp [ih (i + 1) t h]

lemma runItems_total_append (limit : ℚ) (b : Behavior)
    (l1 l2 : List (String × String)) :
    ∀ (i : Nat) (t : ℚ),
      (runItems limit b i (l1 ++ l2) t).total =
        (runItems limit b (i + l1.length) l2
          (runItems limit b i l1 t).total).total := by
  induction l1 with
  | nil => intro i t; simp [runItems]
  | cons p rest ih =>
    intro i t
    have hidx : i + (rest.length + 1) = (i + 1) + rest.length := by omega
    simp only [List.cons_append, runItems, List.length_cons, hidx]
    exact ih (i + 1) (processItem limit b i p.1 p.2 t).total

lemma runItems_crossing (limit : ℚ) (b : Behavior)
    (pairs : List (String × String)) :
    ∀ (i : Nat) (t : ℚ), t < limit →
      limit ≤ (runItems limit b i pairs t).total →
      ∃ e, (runItems limit b i pairs t).cart.getLast? = some e ∧
        (runItems limit b i pairs t).total < limit + e.price := by
  induction pairs with
  | nil =>
    intro i t ht hlim
    simp only [runItems] at hlim
    linarith
  | cons p rest ih =>
    intro i t ht hlim
    simp only [runItems] at hlim ⊢
    rcases processItem_shape limit b i p.1 p.2 t with ⟨hc, htot⟩ | ⟨e, hc, _, htot⟩
    · rw [htot] at hlim ⊢
      obtain ⟨e, hl, hb⟩ := ih (i + 1) t ht hlim
      rw [hc]
      exact ⟨e, by simpa using hl, hb⟩
    · by_cases hcross : limit ≤ t + e.price
      · rw [htot] at hlim ⊢
        rw [runItems_saturated limit b rest (i + 1) (t + e.price) hcross] at hlim ⊢
        rw [hc]
        refine ⟨e, by simp, ?_⟩
        simp only []
        linarith
      · rw [htot] at hlim ⊢
        obtain ⟨e2, hl2, hb2⟩ := ih (i + 1) (t + e.price) (not_le.mp hcross) hlim
        refine ⟨e2, ?_, hb2⟩
        rw [hc]
        rw [List.getLast?_append_of_ne_nil]
        · exact hl2
        · intro hnil
          rw [hnil] at hl2
          cases hl2

lemma runItems_no_checkout (limit : ℚ) (b : Behavior)
    (pairs : List (String × String)) :
    ∀ (i : Nat) (t : ℚ),
      CatalogCall.checkout ∉ (runItems limit b i pairs t).calls := by
  induction pairs with
  | nil => intro i t; simp [runItems]
  | cons p rest ih =>
    intro i t
    simp only [runItems, List.mem_append]
    rintro (h | h)
    · exact processItem_no_checkout limit b i p.1 p.2 t h
    · exact ih (i + 1) _ h

lemma map_fst_zip_take {α β : Type} (l1 : List α) (l2 : List β) :
    (l1.zip l2).map Prod.fst = l1.take l2.length := by
  induction l1 generalizing l2 with
  | nil => simp
  | cons a rest ih =>
    cases l2 with
    | nil => simp
    | cons c r2 => simp [ih r2]

lemma shopperAt_mono_step (b : Behavior) (list : List String) (t0 limit : ℚ)
    (hnn : NonNegBehavior b) (k : Nat) :
    (shopperAt b list t0 limit k).total ≤
      (shopperAt b list t0 limit (k + 1)).total := by
  simp only [shopperAt]
  rw [List.take_succ, runItems_total_append]
  cases hget : (list.zip (queriesOf b list))[k]? with
  | none => simp [runItems]
  | some p =>
    simp only [Option.toList]
    have hm := processItem_mono limit b
      (0 + ((list.zip (queriesOf b list)).take k).length) p.1 p.2
      (runItems limit b 0 ((list.zip (queriesOf b list)).take k) t0).total hnn
    simp only [runItems]
    exact hm

lemma processItem_search_count (limit : ℚ) (b : Behavior) (i : Nat)
    (orig : String) (t : ℚ) (hgate : t < limit) :
    (processItem limit b i orig orig t).calls.count
      (CatalogCall.search orig) = 1 := by
  rw [processItem_eq limit b i orig orig t (not_le.mpr hgate)]
  have hrc : retryCalls b i orig orig = [CatalogCall.search orig] := by
    simp [retryCalls]
  split_ifs
  · rw [hrc]
    simp
  · obtain ⟨extra, he, hextra⟩ := selectAndCommit_calls b i orig orig t
      (optionsAfterRetry b i orig orig) (retryCalls b i orig orig)
    have hz : extra.count (CatalogCall.search orig) = 0 := by
      rw [List.count_eq_zero]
      intro hmem
      rcases hextra _ hmem with ⟨j, hj, _⟩ | hs
      · cases hj
      · cases hs
    calc (selectAndCommit b i orig orig t (optionsAfterRetry b i orig orig)
            (retryCalls b i orig orig)).calls.count (CatalogCall.search orig)
        = (retryCalls b i orig orig).count (CatalogCall.search orig) +
            extra.count (CatalogCall.search orig) := by
          rw [he, List.count_append]
      _ = 1 := by rw [hz, hrc]; simp

lemma runItems_checkout_irrel (limit : ℚ) (b : Behavior) (c : Bool)
    (pairs : List (String × String)) :
    ∀ (i : Nat) (t : ℚ),
      runItems limit { b with checkoutOk := c } i pairs t =
        runItems limit b i pairs t := by
  induction pairs with
  | nil => intro i t; rfl
  | cons p rest ih =>
    intro i t
    have hp : processItem limit { b with checkoutOk := c } i p.1 p.2 t =
        processItem limit b i p.1 p.2 t := rfl
    simp only [runItems, hp, ih]

lemma findIntMatch_of_no_digit :
    ∀ cs : List Char, (∀ ch ∈ cs, ch.isDigit = false) →
      findIntMatch cs = none := by
  intro cs
  induction cs with
  | nil => intro _; rfl
  | cons c rest ih =>
    intro h
    have hc : c.isDigit = false := h c (by simp)
    simp only [findIntMatch]
    rw [if_neg (by simp [hc])]
    by_cases hm : c = '-'
    · rw [if_pos hm]
      cases rest with
      | nil => rfl
      | cons d tail =>
        have hd : d.isDigit = false := h d (by simp)
        show (if d.isDigit = true then _ else findIntMatch (d :: tail)) = none
        rw [if_neg (by simp [hd])]
        exact ih (fun x hx => h x (by simp [hx]))
    · rw [if_neg hm]
      exact ih (fun x hx => h x (by simp [hx]))

/-! ## Lemmas about the pipeline engine -/

lemma engineRun_no_interrupt (exec : Stage → AgentState → StageUpdate) :
    ∀ (fuel : Nat) (s : Stage) (st : AgentState) (x : Stage),
      x ∈ (engineRun exec fuel s true st).1 → x ∉ interruptBefore := by
  intro fuel
  induction fuel with
  | zero => intro s st x hx; cases hx
  | succ n ih =>
    intro s st x hx
    simp only [engineRun] at hx
    split_ifs at hx with hcond
    · cases hx
    · have hs : s ∉ interruptBefore := fun hmem => hcond ⟨by trivial, hmem⟩
      cases hns : nextStage s with
      | none =>
        rw [hns] at hx
        simp only [List.mem_singleton] at hx
        subst hx
        exact hs
      | some t2 =>
        rw [hns] at hx
        simp only [List.mem_cons] at hx
        rcases hx with rfl | hx
        · exact hs
        · exact ih t2 _ x hx

lemma engineRun_resume_tail (exec : Stage → AgentState → StageUpdate) :
    ∀ (fuel : Nat) (s : Stage) (st : AgentState) (x : Stage),
      x ∈ (engineRun exec fuel s false st).1.tail → x ∉ interruptBefore := by
  intro fuel
  cases fuel with
  | zero => intro s st x hx; cases hx
  | succ n =>
    intro s st x hx
    simp only [engineRun] at hx
    rw [if_neg (by simp)] at hx
    cases hns : nextStage s with
    | none =>
      rw [hns] at hx
      cases hx
    | some t2 =>
      rw [hns] at hx
      simp only [List.tail_cons] at hx
      exact engineRun_no_interrupt exec n t2 _ x hx

/-! ## Claim theorems -/

/-- Claim C1, amended: the partition invariant holds for the items the loop
actually processes.  Whenever the optimizer query list has at least as many
entries as the shopping list (in particular when optimization fails and
falls back to the list itself), every item of the shopping list appears, by
original descriptor and counting multiplicity, in exactly one of cartItems
and missingItems: for every descriptor, its count in the cart originals plus
its count in the missing originals equals its count in the shopping list. -/
theorem shopper_partition_of_covering (b : Behavior) (list : List String)
    (t0 limit : ℚ) (x : String)
    (hq : list.length ≤ (queriesOf b list).length) :
    ((shopper_node b list t0 limit).cart_items.map CartEntry.original).count x +
      ((shopper_node b list t0 limit).missing_items.map
        MissEntry.original).count x = list.count x := by
  have h := runItems_origs_count limit b (list.zip (queriesOf b list)) x 0 t0
  rw [List.map_fst_zip list (queriesOf b list) hq] at h
  exact h

/-- Claim C1, counterexample to the claim as stated: with shopping list
["a"], zero starting total, budget 10 and an optimizer that returned an
empty query list, the Shopper finishes with the item "a" in neither
cartItems nor missingItems, so cartItems and missingItems do not partition
the shopping list. -/
theorem shopper_partition_counterexample :
    (shopper_node bNoQueries ["a"] 0 10).cart_items = [] ∧
      (shopper_node bNoQueries ["a"] 0 10).missing_items = [] ∧
      ["a"] ≠ ([] : List String) := by
  refine ⟨rfl, rfl, by simp⟩

/-- Claim C1 witness: a concrete covering run in which the count equation is
obtained from the partition theorem. -/
theorem shopper_partition_of_covering_witness :
    (["a"] : List String).length ≤ (queriesOf bEmpty ["a"]).length ∧
      ((shopper_node bEmpty ["a"] 0 10).cart_items.map
          CartEntry.original).count "a" +
        ((shopper_node bEmpty ["a"] 0 10).missing_items.map
          MissEntry.original).count "a" = (["a"] : List String).count "a" :=
  ⟨by decide, shopper_partition_of_covering bEmpty ["a"] 0 10 "a" (by decide)⟩

/-- Claim C8: the loop iterates over the pairwise zip of the shopping list
with the optimizer query list.  The number of recorded outcomes is exactly
the length of the zip; the recorded original descriptors are exactly those
of the first (length of query list) items of the shopping list, so trailing
items beyond a shorter query list appear in neither output; and when
optimization fails the query list is the shopping list itself, so every
item is processed. -/
theorem shopper_zip_truncation (b : Behavior) (list : List String)
    (t0 limit : ℚ) :
    ((shopper_node b list t0 limit).cart_items.length +
        (shopper_node b list t0 limit).missing_items.length =
        min list.length (queriesOf b list).length) ∧
      (∀ x,
        ((shopper_node b list t0 limit).cart_items.map
            CartEntry.original).count x +
          ((shopper_node b list t0 limit).missing_items.map
            MissEntry.original).count x =
          (list.take (queriesOf b list).length).count x) ∧
      queriesOf { b with optimized := none } list = list := by
  refine ⟨?_, ?_, rfl⟩
  · have h := runItems_length limit b (list.zip (queriesOf b list)) 0 t0
    rw [List.length_zip] at h
    exact h
  · intro x
    have h := runItems_origs_count limit b (list.zip (queriesOf b list)) x 0 t0
    rw [map_fst_zip_take list (queriesOf b list)] at h
    exact h

/-- Claim C3, amended: the budget gate.  When the running total has reached
the limit at the start of an iteration, that iteration records the item as
missing with reason BudgetCut and issues no catalog call; consequently,
when the Shopper starts with runningTotal equal to budgetLimit, every item
processed by the loop (the first min(list length, query count) items — all
items whenever the query list covers the shopping list) is recorded
BudgetCut, the cart stays empty, and the only catalog call of the whole run
is the final checkout hand-off. -/
theorem shopper_budget_gate (limit : ℚ) (b : Behavior) (i : Nat)
    (orig q : String) (t : ℚ) (list : List String) (h : limit ≤ t) :
    processItem limit b i orig q t =
        ⟨[], [⟨orig, Reason.BudgetCut⟩], t, []⟩ ∧
      shopper_node b list limit limit =
        ⟨[], (list.take (queriesOf b list).length).map
          (fun o => ⟨o, Reason.BudgetCut⟩), limit, [CatalogCall.checkout]⟩ := by
  constructor
  · exact processItem_budget limit b i orig q t h
  · simp only [shopper_node]
    rw [runItems_saturated limit b (list.zip (queriesOf b list)) 0 limit
      (le_refl limit)]
    rw [← map_fst_zip_take list (queriesOf b list), List.map_map]
    rfl

/-- Claim C3, counterexample to the claim as stated: with shopping list
["a"], runningTotal equal to budgetLimit at entry, and an optimizer that
returned an empty query list, the item "a" is not recorded as BudgetCut —
missingItems is empty. -/
theorem shopper_budget_gate_counterexample :
    (shopper_node bNoQueries ["a"] 10 10).missing_items = [] ∧
      (shopper_node bNoQueries ["a"] 10 10).cart_items = [] ∧
      ["a"] ≠ ([] : List String) := by
  refine ⟨rfl, rfl, by simp⟩

/-- Claim C3 witness: the per-item gate applied at a concrete saturated
state, and the whole-run consequence at runningTotal = budgetLimit. -/
theorem shopper_budget_gate_witness :
    (10 : ℚ) ≤ 10 ∧
      processItem 10 bEmpty 0 "a" "a" 10 =
        ⟨[], [⟨"a", Reason.BudgetCut⟩], 10, []⟩ ∧
      shopper_node bEmpty ["a"] 10 10 =
        ⟨[], [⟨"a", Reason.BudgetCut⟩], 10, [CatalogCall.checkout]⟩ := by
  have h := shopper_budget_gate 10 bEmpty 0 "a" "a" 10 ["a"] (le_refl 10)
  exact ⟨le_refl 10, h.1, h.2⟩

/-- Claim C2: throughout every Shopper run the running total equals the
starting total plus the sum of the prices of the committed cart entries;
under the spec catalog model (non-negative prices) it is monotonically
non-decreasing across loop iterations; and when the run started below the
limit and exits at or above it, the final total exceeds the limit by less
than the price of the last committed entry — the entry whose purchase
crossed the limit, since the gate blocks every later commit. -/
theorem shopper_budget_totals (b : Behavior) (list : List String)
    (t0 limit : ℚ) :
    (∀ k, (shopperAt b list t0 limit k).total =
        t0 + sumPrices (shopperAt b list t0 limit k).cart) ∧
      (NonNegBehavior b → ∀ k,
        (shopperAt b list t0 limit k).total ≤
          (shopperAt b list t0 limit (k + 1)).total) ∧
      (t0 < limit → limit ≤ (shopper_node b list t0 limit).total_cost →
        ∃ e, (shopper_node b list t0 limit).cart_items.getLast? = some e ∧
          (shopper_node b list t0 limit).total_cost < limit + e.price) := by
  refine ⟨?_, ?_, ?_⟩
  · intro k
    exact runItems_sum limit b _ 0 t0
  · intro hnn k
    exact shopperAt_mono_step b list t0 limit hnn k
  · intro h1 h2
    exact runItems_crossing limit b (list.zip (queriesOf b list)) 0 t0 h1 h2

/-- Claim C2 witness: the boundary scenario of spec section 8 — apple at
3.00 then beef at 12.00 against budget 10.00 — instantiating all three
conjuncts, with the crossing bound obtained from the theorem. -/
theorem shopper_budget_totals_witness :
    NonNegBehavior bShop ∧ (0 : ℚ) < 10 ∧
      (10 : ℚ) ≤ (shopper_node bShop ["apple", "beef"] 0 10).total_cost ∧
      (shopperAt bShop ["apple", "beef"] 0 10 1).total =
        0 + sumPrices (shopperAt bShop ["apple", "beef"] 0 10 1).cart ∧
      (shopperAt bShop ["apple", "beef"] 0 10 1).total ≤
        (shopperAt bShop ["apple", "beef"] 0 10 2).total ∧
      (∃ e, (shopper_node bShop ["apple", "beef"] 0 10).cart_items.getLast?
          = some e ∧
        (shopper_node bShop ["apple", "beef"] 0 10).total_cost
          < 10 + e.price) := by
  have hnn : NonNegBehavior bShop := by
    refine ⟨?_, ?_, ?_⟩
    · intro i c hc
      simp only [bShop] at hc
      split_ifs at hc <;>
        first
          | (simp only [List.mem_singleton] at hc; subst hc; norm_num)
          | cases hc
    · intro i c hc
      cases hc
    · intro i
      exact le_refl 0
  have hfin : (shopper_node bShop ["apple", "beef"] 0 10).total_cost = 15 := by
    norm_num [shopper_node, queriesOf, bShop, runItems, processItem,
      selectAndCommit, show parseChoice "0" = 0 from by decide]
  have h := shopper_budget_totals bShop ["apple", "beef"] 0 10
  refine ⟨hnn, by norm_num, by rw [hfin]; norm_num, h.1 1, h.2.1 hnn 1,
    h.2.2 (by norm_num) (by rw [hfin]; norm_num)⟩

/-- Claim C5: with the budget gate open, an item is recorded missing with
reason NotFound exactly when the fallback ladder is exhausted — either the
options offered to selection after the (conditional) retry are empty, or
the parsed choice was in bounds, the indexed commit failed and the one-shot
search-and-add fallback did not report ADDED.  When the query equals the
original descriptor the iteration performs exactly one search (no retry),
and the loop always processes every zipped item — one recorded outcome per
pair — so a failed item never aborts the run. -/
theorem shopper_notfound_iff (limit : ℚ) (b : Behavior) (i : Nat)
    (orig q : String) (t : ℚ) (pairs : List (String × String)) (t0 : ℚ)
    (hgate : t < limit) :
    ((processItem limit b i orig q t).missing.map MissEntry.reason
        = [Reason.NotFound] ↔
      (optionsAfterRetry b i orig q = [] ∨
        (choiceInBounds b i (optionsAfterRetry b i orig q) ∧
          b.addResult i = false ∧ (b.fallback i).status ≠ "ADDED"))) ∧
      (processItem limit b i orig orig t).calls.count
        (CatalogCall.search orig) = 1 ∧
      (runItems limit b 0 pairs t0).cart.length +
        (runItems limit b 0 pairs t0).missing.length = pairs.length := by
  refine ⟨processItem_notFound_iff limit b i orig q t hgate,
    processItem_search_count limit b i orig t hgate,
    runItems_length limit b pairs 0 t0⟩

/-- Claim C5 witness: with every search empty, a concrete open-gate
iteration is recorded NotFound (ladder exhausted on the empty side), a
concrete untransformed query performs exactly one search, and a concrete
one-pair run records exactly one outcome. -/
theorem shopper_notfound_iff_witness :
    (0 : ℚ) < 10 ∧
      (processItem 10 bEmpty 0 "a" "a" 0).missing.map MissEntry.reason
        = [Reason.NotFound] ∧
      (processItem 10 bEmpty 0 "a" "a" 0).calls.count
        (CatalogCall.search "a") = 1 ∧
      (runItems 10 bEmpty 0 [("a", "a")] 0).cart.length +
        (runItems 10 bEmpty 0 [("a", "a")] 0).missing.length = 1 := by
  have h := shopper_notfound_iff 10 bEmpty 0 "a" "a" 0 [("a", "a")] 0
    (by norm_num)
  exact ⟨by norm_num, h.1.mpr (Or.inl rfl), h.2.1, h.2.2⟩

lemma shopper_node_checkout_irrel (b : Behavior) (c : Bool)
    (list : List String) (t0 limit : ℚ) :
    shopper_node { b with checkoutOk := c } list t0 limit =
      shopper_node b list t0 limit := by
  simp only [shopper_node]
  rw [runItems_checkout_irrel]
  rfl

/-- Claim C6, amended: the checkout hand-off is invoked exactly once, as the
last catalog call of the run, after the per-item loop, whatever the per-item
outcomes; however its boolean result is discarded by the Shopper — the
returned record is identical whatever the hand-off outcome — so it does not
alter cartItems, missingItems or the total, and it is not reported to the
caller. -/
theorem shopper_checkout_once (b : Behavior) (list : List String)
    (t0 limit : ℚ) (c : Bool) :
    (shopper_node b list t0 limit).calls.getLast?
        = some CatalogCall.checkout ∧
      (shopper_node b list t0 limit).calls.dropLast.count
        CatalogCall.checkout = 0 ∧
      (shopper_node b list t0 limit).calls.count CatalogCall.checkout = 1 ∧
      shopper_node { b with checkoutOk := c } list t0 limit =
        shopper_node b list t0 limit := by
  have hno := runItems_no_checkout limit b (list.zip (queriesOf b list)) 0 t0
  refine ⟨?_, ?_, ?_, shopper_node_checkout_irrel b c list t0 limit⟩
  · simp only [shopper_node]
    simp
  · simp only [shopper_node]
    simp only [List.dropLast_concat]
    exact List.count_eq_zero.mpr hno
  · simp only [shopper_node]
    rw [List.count_append, List.count_eq_zero.mpr hno]
    simp

/-- Claim C6, counterexample to the claim as stated: the success or failure
of the checkout hand-off is not reported to the caller — a concrete run
returns the identical record whether the hand-off succeeds or fails. -/
theorem shopper_checkout_report_counterexample :
    bEmpty.checkoutOk = true ∧
      ({ bEmpty with checkoutOk := false } : Behavior).checkoutOk = false ∧
      shopper_node bEmpty ["a"] 0 10 =
        shopper_node { bEmpty with checkoutOk := false } ["a"] 0 10 := by
  refine ⟨rfl, rfl, by decide⟩

/-- Claim C7: stage updates are merged, not full replacements.  After
patching the state with an edited shopping list and resuming at Shop, the
engine runs the Shopper on the edited list; the shopper output replaces any
prior cartItems, missingItems and total (whatever the prior state held);
fields the stage does not return — budgetLimit, pantry text, the plan
document, the approval flag and the shopping list itself — are left
unchanged; and the run halts again before Checkout after executing exactly
Shop and Review. -/
theorem stage_update_merge_resume (b : Behavior) (s : AgentState)
    (edited : List String) :
    ((resumeRun (stageExec b) Stage.shopper
        (applyUpdate s { noUpdate with shopping_list := some edited })).2.1.cart_items
      = (shopper_node b edited s.total_cost s.budget_limit).cart_items) ∧
    ((resumeRun (stageExec b) Stage.shopper
        (applyUpdate s { noUpdate with shopping_list := some edited })).2.1.missing_items
      = (shopper_node b edited s.total_cost s.budget_limit).missing_items) ∧
    ((resumeRun (stageExec b) Stage.shopper
        (applyUpdate s { noUpdate with shopping_list := some edited })).2.1.total_cost
      = (shopper_node b edited s.total_cost s.budget_limit).total_cost) ∧
    ((resumeRun (stageExec b) Stage.shopper
        (applyUpdate s { noUpdate with shopping_list := some edited })).2.1.budget_limit
      = s.budget_limit) ∧
    ((resumeRun (stageExec b) Stage.shopper
        (applyUpdate s { noUpdate with shopping_list := some edited })).2.1.pantry_items
      = s.pantry_items) ∧
    ((resumeRun (stageExec b) Stage.shopper
        (applyUpdate s { noUpdate with shopping_list := some edited })).2.1.meal_plan_json
      = s.meal_plan_json) ∧
    ((resumeRun (stageExec b) Stage.shopper
        (applyUpdate s { noUpdate with shopping_list := some edited })).2.1.user_approved
      = s.user_approved) ∧
    ((resumeRun (stageExec b) Stage.shopper
        (applyUpdate s { noUpdate with shopping_list := some edited })).2.1.shopping_list
      = edited) ∧
    ((resumeRun (stageExec b) Stage.shopper
        (applyUpdate s { noUpdate with shopping_list := some edited })).2.2
      = some Stage.checkout) ∧
    ((resumeRun (stageExec b) Stage.shopper
        (applyUpdate s { noUpdate with shopping_list := some edited })).1
      = [Stage.shopper, Stage.human_review]) :=
  ⟨rfl, rfl, rfl, rfl, rfl, rfl, rfl, rfl, rfl, rfl⟩

/-- Claim C4: the engine drives the fixed stage order Plan → Extract →
Shop → Review → Checkout and never executes Shop or Checkout without first
halting and returning control before that stage.  A start on a fresh
session executes exactly planner and extractor and halts with shopper
pending; any engine invocation that checks interrupts executes no interrupt
stage at all; a resume executes interrupt stages only as its first stage;
resuming at Shop executes shopper then human review and halts before
checkout; resuming at Checkout executes checkout and terminates. -/
theorem pipeline_interrupt_order :
    (∀ (exec : Stage → AgentState → StageUpdate) (st0 : AgentState),
      (startRun exec st0).1 = [Stage.planner, Stage.extractor] ∧
        (startRun exec st0).2.2 = some Stage.shopper) ∧
      (∀ (exec : Stage → AgentState → StageUpdate) (fuel : Nat) (s : Stage)
        (st : AgentState) (x : Stage),
        x ∈ (engineRun exec fuel s true st).1 → x ∉ interruptBefore) ∧
      (∀ (exec : Stage → AgentState → StageUpdate) (fuel : Nat) (s : Stage)
        (st : AgentState) (x : Stage),
        x ∈ (engineRun exec fuel s false st).1.tail → x ∉ interruptBefore) ∧
      (∀ (exec : Stage → AgentState → StageUpdate) (st : AgentState),
        (resumeRun exec Stage.shopper st).1 =
            [Stage.shopper, Stage.human_review] ∧
          (resumeRun exec Stage.shopper st).2.2 = some Stage.checkout) ∧
      (∀ (exec : Stage → AgentState → StageUpdate) (st : AgentState),
        (resumeRun exec Stage.checkout st).1 = [Stage.checkout] ∧
          (resumeRun exec Stage.checkout st).2.2 = none) :=
  ⟨fun _ _ => ⟨rfl, rfl⟩,
    engineRun_no_interrupt,
    engineRun_resume_tail,
    fun _ _ => ⟨rfl, rfl⟩,
    fun _ _ => ⟨rfl, rfl⟩⟩

/-- Claim C4 witness: a concrete start run whose executed trace contains
planner, which the theorem then shows is not an interrupt point; similarly
extractor from the tail of a concrete resume run. -/
theorem pipeline_interrupt_order_witness :
    Stage.planner ∈
        (engineRun (fun _ _ => noUpdate) 5 Stage.planner true s0).1 ∧
      Stage.planner ∉ interruptBefore ∧
      Stage.human_review ∈
        (engineRun (fun _ _ => noUpdate) 5 Stage.shopper false s0).1.tail ∧
      Stage.human_review ∉ interruptBefore := by
  refine ⟨by decide, ?_, by decide, ?_⟩
  · exact pipeline_interrupt_order.2.1 (fun _ _ => noUpdate) 5 Stage.planner
      s0 Stage.planner (by decide)
  · exact pipeline_interrupt_order.2.2.1 (fun _ _ => noUpdate) 5 Stage.shopper
      s0 Stage.human_review (by decide)

/-- Claim C9: a commit attempt is only ever issued with an index within the
bounds of the retrieved candidate list — every add call logged by an
iteration has index strictly below the length of the options offered to
selection; every out-of-bounds selection (the -1 sentinel included) yields
a missing record with reason NoGoodMatch and no add call at all; and the
browser add operation itself returns false (rather than raising) for any
index at or beyond the number of on-page results. -/
theorem add_index_bounds (limit : ℚ) (b : Behavior) (i : Nat)
    (orig q : String) (t : ℚ) {α : Type} (results : List α)
    (clickable : α → Bool) (k : Nat) :
    (∀ j, CatalogCall.add j ∈ (processItem limit b i orig q t).calls →
        j < (optionsAfterRetry b i orig q).length) ∧
      (t < limit → optionsAfterRetry b i orig q ≠ [] →
        ¬ choiceInBounds b i (optionsAfterRetry b i orig q) →
        (processItem limit b i orig q t).missing =
            [⟨orig, Reason.NoGoodMatch⟩] ∧
          ∀ j, CatalogCall.add j ∉ (processItem limit b i orig q t).calls) ∧
      add_specific_item results clickable (results.length + k) = false := by
  refine ⟨?_, processItem_noGoodMatch limit b i orig q t, ?_⟩
  · intro j hj
    rcases processItem_calls limit b i orig q t _ hj with
      ⟨q2, hq⟩ | ⟨j2, hj2, hlt⟩ | hs
    · cases hq
    · injection hj2 with hjj
      subst hjj
      exact hlt
    · cases hs
  · simp [add_specific_item]

/-- Claim C9 witness: a concrete in-bounds add call, a concrete -1
selection recorded NoGoodMatch with no add call, and a concrete
out-of-range browser add returning false. -/
theorem add_index_bounds_witness :
    (CatalogCall.add 0 ∈ (processItem 10 bShop 0 "apple" "apple" 0).calls ∧
        0 < (optionsAfterRetry bShop 0 "apple" "apple").length) ∧
      ((0 : ℚ) < 10 ∧ optionsAfterRetry bNoMatch 0 "a" "a" ≠ [] ∧
        ¬ choiceInBounds bNoMatch 0 (optionsAfterRetry bNoMatch 0 "a" "a") ∧
        (processItem 10 bNoMatch 0 "a" "a" 0).missing =
          [⟨"a", Reason.NoGoodMatch⟩] ∧
        CatalogCall.add 0 ∉ (processItem 10 bNoMatch 0 "a" "a" 0).calls) ∧
      add_specific_item [0, 1] (fun _ => true) (2 + 0) = false := by
  have h1 := @add_index_bounds 10 bShop 0 "apple" "apple" 0 Nat [0, 1]
    (fun _ => true) 0
  have h2 := @add_index_bounds 10 bNoMatch 0 "a" "a" 0 Nat [0, 1]
    (fun _ => true) 0
  have hng := h2.2.1 (by norm_num) (by decide)
    (by unfold choiceInBounds; decide)
  exact ⟨⟨by decide, h1.1 0 (by decide)⟩,
    ⟨by norm_num, by decide, by unfold choiceInBounds; decide,
      hng.1, hng.2 0⟩, h1.2.2⟩

/-- Claim C10: when the selection output contains no parsable integer, the
parsed choice defaults to 0, and with a nonempty candidate list the Shopper
then attempts to commit the first candidate — an add call at index 0 is
issued — rather than recording the item NoGoodMatch. -/
theorem choice_default_zero (s : String) (limit : ℚ) (b : Behavior)
    (i : Nat) (orig q : String) (t : ℚ) :
    ((∀ ch ∈ s.toList, ch.isDigit = false) → parseChoice s = 0) ∧
      (t < limit → optionsAfterRetry b i orig q ≠ [] →
        (∀ ch ∈ (b.decision i).toList, ch.isDigit = false) →
        CatalogCall.add 0 ∈ (processItem limit b i orig q t).calls ∧
          ∀ m ∈ (processItem limit b i orig q t).missing,
            m.reason ≠ Reason.NoGoodMatch) := by
  constructor
  · intro h
    unfold parseChoice
    rw [findIntMatch_of_no_digit _ h]
  · intro hgate hne hnod
    have hp : parseChoice (b.decision i) = 0 := by
      unfold parseChoice
      rw [findIntMatch_of_no_digit _ hnod]
    have hb : choiceInBounds b i (optionsAfterRetry b i orig q) := by
      unfold choiceInBounds
      rw [hp]
      refine ⟨le_refl 0, ?_⟩
      have := List.length_pos.mpr hne
      exact_mod_cast this
    have h := processItem_inBounds_add limit b i orig q t hgate hb
    rw [hp] at h
    simpa using h

/-- Claim C10 witness: a concrete digit-free selection output defaults to
choice 0 and leads to an add call at index 0. -/
theorem choice_default_zero_witness :
    parseChoice "sure, the first one" = 0 ∧
      (0 : ℚ) < 10 ∧ optionsAfterRetry bNoDigit 0 "a" "a" ≠ [] ∧
      CatalogCall.add 0 ∈ (processItem 10 bNoDigit 0 "a" "a" 0).calls := by
  have h := choice_default_zero "sure, the first one" 10 bNoDigit 0 "a" "a" 0
  exact ⟨h.1 (by decide), by norm_num, by decide,
    (h.2 (by norm_num) (by decide) (by decide)).1⟩

end GroceryAgent

